import Mathlib

/-!
# Verification of the algorithm-study automation scripts

Shallow embedding of the pure logic of the repository's Python scripts:

* `scripts/multi_test_runner.py` and `scripts/test_runner.py`
  (output normalisation/comparison and the verdict decision),
* `scripts/fetch_boj_problem.py` together with the fallback-file path of
  `scripts/multi_test_runner.py`,
* `scripts/extract_pr_info.py` (path parsing, author filtering, primary
  problem selection),
* `scripts/update_readme.py` (weekly status table: parse header reset,
  in-memory update, cell rendering and re-parsing).

Python strings are modelled as Lean `String`s (with the character-list
operations spelled out so that everything evaluates), Python `dict`s keyed
by participant name as association lists in insertion order, and Python
`float` parsing/arithmetic as exact fractions (`PyRat`), bridged to `ℚ` by
proven homomorphism lemmas.
-/

namespace PyStr

/-- The whitespace set stripped by Python's `str.strip()` (ASCII part). -/
def isPySpace (c : Char) : Bool :=
  c == ' ' || c == '\t' || c == '\n' || c == '\r' || c == '\x0b' || c == '\x0c'

/-- Python `s.strip()` on the character list: drop whitespace from both ends. -/
def strip (l : List Char) : List Char :=
  ((l.dropWhile isPySpace).reverse.dropWhile isPySpace).reverse

/-- Python `s.split(sep)` for a one-character separator: always at least one
(possibly empty) field, one extra field per separator occurrence. -/
def split (sep : Char) : List Char → List (List Char)
  | [] => [[]]
  | c :: rest =>
    let r := split sep rest
    if c = sep then [] :: r else (c :: r.headD []) :: r.tail

/-- Python `sep.join(parts)`. -/
def joinWith (sep : List Char) : List (List Char) → List Char
  | [] => []
  | [x] => x
  | x :: y :: xs => x ++ sep ++ joinWith sep (y :: xs)

/-- Python `s.isdigit()` (ASCII part): nonempty and all characters digits. -/
def isDigitStr (l : List Char) : Bool :=
  !l.isEmpty && l.all Char.isDigit

/-- Python `int(s)` on an all-digit string. -/
def digitsVal (l : List Char) : Nat :=
  l.foldl (fun n c => n * 10 + (c.toNat - 48)) 0

end PyStr

/-- An exact, kernel-computable fraction (numerator over a positive power-of-ten
style denominator, never reduced): the idealisation of a Python `float` value.
The bridge to `ℚ` is `PyRat.toRat`, with the arithmetic operations proven to
commute with it below. (Mathlib's `Rat` operations are `@[irreducible]`, so
they cannot serve as the executable model.) -/
structure PyRat where
  num : Int
  den : Nat
deriving DecidableEq, Repr

namespace PyRat

/-- The rational value of a fraction. -/
def toRat (a : PyRat) : ℚ := (a.num : ℚ) / (a.den : ℚ)

/-- `10 ^ n` as a fraction. -/
def tenPow (n : Nat) : PyRat := ⟨10 ^ n, 1⟩

/-- `10 ^ (-n)` as a fraction (`1e-9`, `1e-10` in the source). -/
def oneOverTenPow (n : Nat) : PyRat := ⟨1, 10 ^ n⟩

/-- Fraction multiplication. -/
def mul (a b : PyRat) : PyRat := ⟨a.num * b.num, a.den * b.den⟩

/-- Fraction subtraction (Python's binary `-`). -/
def sub (a b : PyRat) : PyRat :=
  ⟨a.num * (b.den : Int) - b.num * (a.den : Int), a.den * b.den⟩

/-- Python's `abs` on a fraction. -/
def pyabs (a : PyRat) : PyRat := ⟨|a.num|, a.den⟩

/-- Fraction division (Python's `/`; the source only ever divides by a
positive value). -/
def div (a b : PyRat) : PyRat :=
  ⟨a.num * (b.den : Int) * Int.sign b.num, a.den * b.num.natAbs⟩

/-- The strict `<` comparison on fractions (cross multiplication; both
denominators are positive throughout). -/
def blt (a b : PyRat) : Bool :=
  a.num * (b.den : Int) < b.num * (a.den : Int)

/-- Python's two-argument `max`: the second argument exactly when the first is
strictly smaller. -/
def pymax (a b : PyRat) : PyRat := if blt a b then b else a

end PyRat

namespace PyFloat

/-- Consume a maximal run of decimal digits. -/
def spanDigits (l : List Char) : List Char × List Char :=
  (l.takeWhile Char.isDigit, l.dropWhile Char.isDigit)

/-- The exact value of a parsed decimal literal: sign, integer-part digits and
fraction digits. -/
def ofDecimal (neg : Bool) (ip fp : List Char) : PyRat :=
  ⟨(if neg then -1 else 1) *
      ((PyStr.digitsVal ip : Int) * 10 ^ fp.length + (PyStr.digitsVal fp : Int)),
    10 ^ fp.length⟩

/-- The optional exponent tail of a float literal, applied to the parsed
mantissa. -/
def applyExp (mant : PyRat) (t : List Char) : Option PyRat :=
  let signed : Bool × List Char :=
    match t with
    | '+' :: t2 => (true, t2)
    | '-' :: t2 => (false, t2)
    | _ => (true, t)
  let ed := (spanDigits signed.2).1
  let t2 := (spanDigits signed.2).2
  if ed.isEmpty || !t2.isEmpty then none
  else
    some (PyRat.mul mant
      (if signed.1 then PyRat.tenPow (PyStr.digitsVal ed)
       else PyRat.oneOverTenPow (PyStr.digitsVal ed)))

/-- Python's builtin `float(s)` as used by `compare_outputs`: parsing of a
finite decimal literal (optional sign, integer part, fraction, exponent),
idealised as an exact fraction. IEEE-754 rounding, `inf`/`nan` spellings and
underscore separators are not modelled; `none` plays the role of
`ValueError`. -/
def parse (s : String) : Option PyRat :=
  let l := PyStr.strip s.data
  let signed : Bool × List Char :=
    match l with
    | '+' :: t => (false, t)
    | '-' :: t => (true, t)
    | _ => (false, l)
  let ip := (spanDigits signed.2).1
  let l2 := (spanDigits signed.2).2
  let fracked : List Char × List Char :=
    match l2 with
    | '.' :: t => spanDigits t
    | _ => ([], l2)
  let fp := fracked.1
  if ip.isEmpty && fp.isEmpty then none
  else
    let mant := ofDecimal signed.1 ip fp
    match fracked.2 with
    | [] => some mant
    | 'e' :: t => applyExp mant t
    | 'E' :: t => applyExp mant t
    | _ => none

end PyFloat

namespace MultiTestRunner

/-- `normalize_output` of scripts/multi_test_runner.py: the empty string is
returned unchanged, otherwise the whole output is stripped, split into lines,
each line stripped, and the lines rejoined with a single newline. -/
def normalize_output (output : String) : String :=
  if output.data.isEmpty then ""
  else
    String.mk (PyStr.joinWith ['\n']
      ((PyStr.split '\n' (PyStr.strip output.data)).map PyStr.strip))

/-- The hardcoded allow-list of floating-point problems in
scripts/multi_test_runner.py `compare_outputs`. -/
def float_problems : List String := ["1008", "1003", "10869", "2914"]

/-- `compare_outputs` of scripts/multi_test_runner.py: exact comparison of
the normalised strings, with a numeric-tolerance fallback for problems on the
allow-list (accept when the absolute or the relative difference is strictly
below `1e-9`); a failed `float` conversion falls through to `False`. -/
def compare_outputs (expected actual : String) (problem_id : Option String) : Bool :=
  let expected_norm := normalize_output expected
  let actual_norm := normalize_output actual
  if expected_norm = actual_norm then true
  else if (match problem_id with
           | some pid => decide (pid ∈ float_problems)
           | none => false) then
    match PyFloat.parse expected_norm, PyFloat.parse actual_norm with
    | some expected_float, some actual_float =>
      let abs_diff := PyRat.pyabs (PyRat.sub expected_float actual_float)
      let rel_diff :=
        PyRat.div abs_diff (PyRat.pymax (PyRat.pyabs expected_float) (PyRat.oneOverTenPow 10))
      PyRat.blt abs_diff (PyRat.oneOverTenPow 9) || PyRat.blt rel_diff (PyRat.oneOverTenPow 9)
    | _, _ => false
  else false

/-- The per-suite counters accumulated by `run_test_suite`. -/
structure SuiteResult where
  total : Nat
  passed : Nat
  failed : Nat
deriving DecidableEq, Repr

/-- `run_test_suite` of scripts/multi_test_runner.py, abstracted over the
per-case outcomes (`true` = the case passed): it records the totals and the
pass/fail counts. -/
def run_test_suite (outcomes : List Bool) : SuiteResult :=
  { total := outcomes.length
    passed := (outcomes.filter (fun b => b = true)).length
    failed := (outcomes.filter (fun b => b = false)).length }

/-- The verdict decision of `run_single_problem_test`
(scripts/multi_test_runner.py lines 436-465), returning the verdict string
and the caveat appended to the result's error list. -/
def judge_multi (sample generated : SuiteResult) : String × List String :=
  if sample.total = 0 ∧ generated.total = 0 then
    ("PARTIAL_PASS", ["테스트케이스 없음 - 컴파일만 확인됨"])
  else if sample.total > 0 then
    if sample.failed = 0 then
      if generated.total = 0 ∨ generated.passed > 0 then ("PASS", [])
      else ("PARTIAL_PASS", [])
    else if sample.passed > 0 then ("PARTIAL_PASS", [])
    else ("FAIL", [])
  else
    if generated.passed > 0 then ("PARTIAL_PASS", []) else ("FAIL", [])

end MultiTestRunner

namespace TestRunner

/-- `normalize_output` of scripts/test_runner.py (textually identical to the
multi-runner's version). -/
def normalize_output (output : String) : String :=
  if output.data.isEmpty then ""
  else
    String.mk (PyStr.joinWith ['\n']
      ((PyStr.split '\n' (PyStr.strip output.data)).map PyStr.strip))

/-- `compare_outputs` of scripts/test_runner.py: plain equality of the
normalised outputs, with no numeric fallback. -/
def compare_outputs (expected actual : String) : Bool :=
  normalize_output expected == normalize_output actual

/-- The verdict decision of `main` in scripts/test_runner.py
(lines 308-322). -/
def judge_test_runner (sample generated : MultiTestRunner.SuiteResult) : String :=
  let sample_all_passed := sample.total > 0 ∧ sample.failed = 0
  let generated_any_passed := generated.passed > 0
  if sample_all_passed then
    if generated_any_passed ∨ generated.total = 0 then "PASS" else "PARTIAL_PASS"
  else if sample.passed > 0 then "PARTIAL_PASS"
  else "FAIL"

end TestRunner


namespace MultiTestRunner

/-- One input/expected-output pair as stored in the JSON files. -/
structure SamplePair where
  input : String
  output : String
deriving DecidableEq, Repr

/-- The content of a `problem_<id>_info.json` file. -/
structure ProblemInfoFile where
  problem_id : String
  title : String
  level : String
  tags : List String
  description : String
  input_format : String
  output_format : String
  limits_time : String
  limits_memory : String
  hint : String
  samples : List SamplePair
  source : String
deriving DecidableEq, Repr

/-- The content of a `sample_<id>_tests.json` / `tests_<id>.json` file. -/
structure TestsFile where
  problem_id : String
  test_cases : List SamplePair
  source : String
deriving DecidableEq, Repr

/-- The three files written by `create_fallback_files`. -/
structure FallbackFiles where
  info : ProblemInfoFile
  sample_tests : TestsFile
  generated_tests : TestsFile
deriving DecidableEq, Repr

/-- `create_fallback_files` of scripts/multi_test_runner.py: the placeholder
problem info and the two empty test files written when the problem search
failed. -/
def create_fallback_files (problem_id : String) : FallbackFiles :=
  let empty_tests : TestsFile :=
    { problem_id := problem_id, test_cases := [], source := "fallback_empty" }
  { info :=
      { problem_id := problem_id
        title := "문제 " ++ problem_id
        level := "N/A"
        tags := []
        description :=
          "문제 정보를 가져올 수 없습니다. https://www.acmicpc.net/problem/" ++
            problem_id ++ " 에서 직접 확인해주세요."
        input_format := "입력 형식을 직접 확인해주세요."
        output_format := "출력 형식을 직접 확인해주세요."
        limits_time := "시간 제한을 직접 확인해주세요."
        limits_memory := "메모리 제한을 직접 확인해주세요."
        hint := ""
        samples := []
        source := "fallback" }
    sample_tests := empty_tests
    generated_tests := empty_tests }

/-- The result record built by `run_single_problem_test`. -/
structure ProblemRunResult where
  problem_id : String
  author : String
  code_file : String
  language : String
  result : String
  search_success : Bool
  sample_tests : SuiteResult
  generated_tests : SuiteResult
  errors : List String
deriving DecidableEq, Repr

/-- The control flow of `run_single_problem_test` in
scripts/multi_test_runner.py, abstracted over the effectful steps: whether the
code file exists, whether compilation succeeded, whether the problem search
succeeded, and the per-case pass/fail outcomes of the two loaded suites.
(Messages recorded for a failed Gemini test generation are abstracted away;
they only add further error strings.) A missing file or failed compilation
short-circuits; a failed search falls back to `create_fallback_files` and
continues to the verdict decision. -/
def run_single_problem_test (problem_id author code_file : String)
    (code_file_exists compilation_success : Bool)
    (compilation_error : String) (search_success : Bool) (search_error : String)
    (sample_outcomes generated_outcomes : List Bool) : ProblemRunResult :=
  if ¬ code_file_exists then
    { problem_id := problem_id, author := author, code_file := code_file
      language := "java", result := "ERROR", search_success := false
      sample_tests := ⟨0, 0, 0⟩, generated_tests := ⟨0, 0, 0⟩
      errors := ["코드 파일 없음: " ++ code_file] }
  else if ¬ compilation_success then
    { problem_id := problem_id, author := author, code_file := code_file
      language := "java", result := "COMPILATION_ERROR", search_success := false
      sample_tests := ⟨0, 0, 0⟩, generated_tests := ⟨0, 0, 0⟩
      errors := ["컴파일 실패: " ++ compilation_error] }
  else
    let search_errors := if search_success then [] else ["문제 검색 실패: " ++ search_error]
    let sr := run_test_suite sample_outcomes
    let gr := run_test_suite generated_outcomes
    let judged := judge_multi sr gr
    { problem_id := problem_id, author := author, code_file := code_file
      language := "java", result := judged.1, search_success := search_success
      sample_tests := sr, generated_tests := gr
      errors := search_errors ++ judged.2 }

end MultiTestRunner

namespace FetchBojProblem

/-- `main` of scripts/fetch_boj_problem.py, abstracted over whether
`advanced_crawling_strategy` found the problem details: on total crawl
failure the script exits with code 1 (writing nothing); on success it writes
the two JSON files and exits 0. -/
def main_exit_code (crawl_succeeded : Bool) : Nat :=
  if crawl_succeeded then 0 else 1

/-- `search_problem_with_fetch_boj` of scripts/multi_test_runner.py reports
success exactly when the spawned fetcher exited with code 0. -/
def search_success_of_exit (exit_code : Nat) : Bool :=
  exit_code == 0

end FetchBojProblem

namespace ExtractPrInfo

/-- One changed file of the pull request, with the fields used by
scripts/extract_pr_info.py. -/
structure ChangedFile where
  filename : String
  status : String
  changes : Nat
deriving DecidableEq, Repr

/-- One record produced by `filter_author_files`. -/
structure AuthorFile where
  author : String
  problem_id : String
  code_file : String
  language : String
  status : String
  changes : Nat
deriving DecidableEq, Repr

/-- `extract_info_from_path` of scripts/extract_pr_info.py: the regex
`^([^/]+)/(\d+)/Main\.java$` matches exactly the paths of the form
`<author>/<digits>/Main.java` with a nonempty author segment and a nonempty
all-digit problem id (no numeric-range restriction). -/
def extract_info_from_path (file_path : String) : Option (String × String) :=
  match PyStr.split '/' file_path.data with
  | [author, pid, last] =>
    if last = "Main.java".data ∧ author ≠ [] ∧ pid ≠ [] ∧ pid.all Char.isDigit then
      some (String.mk author, String.mk pid)
    else none
  | _ => none

/-- `filter_author_files` of scripts/extract_pr_info.py: paths that do not
match the convention are skipped (non-fatally), files of other authors are
excluded, and each kept file yields an `AuthorFile` record. -/
def filter_author_files : List ChangedFile → String → List AuthorFile
  | [], _ => []
  | f :: rest, pr_author =>
    match extract_info_from_path f.filename with
    | none => filter_author_files rest pr_author
    | some (author, problem_id) =>
      if author = pr_author then
        { author := author, problem_id := problem_id, code_file := f.filename
          language := "java", status := f.status, changes := f.changes } ::
          filter_author_files rest pr_author
      else filter_author_files rest pr_author

/-- Python `int` applied to a problem-id string of digits. -/
def pidVal (s : String) : Nat := PyStr.digitsVal s.data

/-- Python `max(files, key=lambda x: int(x.problem_id))`: the first element
with the maximal problem id. -/
def maxByPid : List AuthorFile → Option AuthorFile
  | [] => none
  | f :: rest =>
    match maxByPid rest with
    | none => some f
    | some b => if pidVal b.problem_id > pidVal f.problem_id then some b else some f

/-- `select_primary_problem` of scripts/extract_pr_info.py: prefer files with
status `added`, then the highest problem id. -/
def select_primary_problem (author_files : List AuthorFile) : Option AuthorFile :=
  if author_files.isEmpty then none
  else
    let added := author_files.filter (fun f => f.status = "added")
    if !added.isEmpty then maxByPid added else maxByPid author_files

end ExtractPrInfo

namespace PyStr

/-- Python `s.replace('...', '')`: remove every (left-to-right,
non-overlapping) occurrence of three consecutive dots. -/
def removeEllipsis : List Char → List Char
  | [] => []
  | [c] => [c]
  | [c1, c2] => [c1, c2]
  | c1 :: c2 :: c3 :: rest =>
    if c1 = '.' ∧ c2 = '.' ∧ c3 = '.' then removeEllipsis rest
    else c1 :: removeEllipsis (c2 :: c3 :: rest)

end PyStr

namespace UpdateReadme

/-- The weekday keys of the participant dictionary in
scripts/update_readme.py. -/
inductive Weekday where
  | monday | tuesday | wednesday | thursday | friday | saturday | sunday
deriving DecidableEq, Repr

/-- One participant's row: the list of problem ids per weekday cell. -/
structure ParticipantData where
  monday : List String
  tuesday : List String
  wednesday : List String
  thursday : List String
  friday : List String
  saturday : List String
  sunday : List String
deriving DecidableEq, Repr

/-- Read one weekday cell. -/
def getCell (pd : ParticipantData) : Weekday → List String
  | .monday => pd.monday
  | .tuesday => pd.tuesday
  | .wednesday => pd.wednesday
  | .thursday => pd.thursday
  | .friday => pd.friday
  | .saturday => pd.saturday
  | .sunday => pd.sunday

/-- Replace one weekday cell. -/
def setCell (pd : ParticipantData) : Weekday → List String → ParticipantData
  | .monday, cell => { pd with monday := cell }
  | .tuesday, cell => { pd with tuesday := cell }
  | .wednesday, cell => { pd with wednesday := cell }
  | .thursday, cell => { pd with thursday := cell }
  | .friday, cell => { pd with friday := cell }
  | .saturday, cell => { pd with saturday := cell }
  | .sunday, cell => { pd with sunday := cell }

/-- The fresh participant row (`{day: [] for day in weekdays}`). -/
def emptyData : ParticipantData := ⟨[], [], [], [], [], [], []⟩

/-- The participant dictionary (`stats['participants']`), an insertion-ordered
mapping from author name to row. -/
def Participants := List (String × ParticipantData)

/-- Dictionary lookup (first matching key). -/
def findRow : List (String × ParticipantData) → String → Option ParticipantData
  | [], _ => none
  | (k, v) :: rest, author => if k = author then some v else findRow rest author

/-- Dictionary update of an existing key (first matching entry). -/
def updateRow : List (String × ParticipantData) → String → ParticipantData →
    List (String × ParticipantData)
  | [], _, _ => []
  | (k, v) :: rest, author, pd =>
    if k = author then (k, pd) :: rest else (k, v) :: updateRow rest author pd

/-- The parsed state of the submission table (`stats` in
scripts/update_readme.py). -/
structure WeekStats where
  participants : List (String × ParticipantData)
  need_reset : Bool
deriving DecidableEq, Repr

/-- The week-header check of `parse_current_week_stats`: the regex embeds the
current year, so a document recorded for another year never matches, and a
matching year with a different week number also triggers the reset.
`recorded = none` models a document without a recognisable week header. -/
def week_header_reset (recorded : Option (Nat × Nat))
    (current_year current_week : Nat) : Bool :=
  match recorded with
  | none => true
  | some (y, w) => !(y == current_year) || !(w == current_week)

/-- `parse_current_week_stats` of scripts/update_readme.py, abstracted over
the table-body parse (`parsed_participants` stands for the participant rows
recovered from the table text): on a week mismatch it returns empty
statistics flagged `need_reset`, discarding the whole table. -/
def parse_current_week_stats (recorded : Option (Nat × Nat))
    (parsed_participants : List (String × ParticipantData))
    (current_year current_week : Nat) : WeekStats :=
  if week_header_reset recorded current_year current_week then
    { participants := [], need_reset := true }
  else
    { participants := parsed_participants, need_reset := false }

/-- The in-memory table update of `update_current_week_table`
(scripts/update_readme.py lines 230-274): on `need_reset` the table is rebuilt
from only the new fact; otherwise the problem id is appended to the author's
weekday cell unless already present, and an unknown author gets a fresh row. -/
def update_current_week_table (stats : WeekStats) (problem_id author : String)
    (weekday : Weekday) : WeekStats :=
  if stats.need_reset then
    { participants := [(author, setCell emptyData weekday [problem_id])]
      need_reset := false }
  else
    match findRow stats.participants author with
    | some participant_info =>
      if problem_id ∈ getCell participant_info weekday then stats
      else
        { participants :=
            updateRow stats.participants author
              (setCell participant_info weekday
                (getCell participant_info weekday ++ [problem_id]))
          need_reset := stats.need_reset }
    | none =>
      { participants :=
          stats.participants ++ [(author, setCell emptyData weekday [problem_id])]
        need_reset := stats.need_reset }

/-- The per-cell rendering of `create_participant_table`
(scripts/update_readme.py lines 320-335): at most three ids are shown,
followed by an ellipsis marker when truncated. -/
def create_problem_cell (problems : List String) : String :=
  if problems.isEmpty then ""
  else if problems.length > 3 then
    String.mk (PyStr.joinWith [',', ' '] ((problems.take 3).map String.data) ++
      ['.', '.', '.'])
  else
    String.mk (PyStr.joinWith [',', ' '] (problems.map String.data))

/-- The per-cell parse of `parse_current_week_stats`
(scripts/update_readme.py lines 200-207): drop the ellipsis marker, strip,
split on commas, and keep the stripped all-digit tokens. -/
def parse_problem_cell (cell : String) : List String :=
  if cell.data.isEmpty then []
  else
    let problem_text := PyStr.strip (PyStr.removeEllipsis cell.data)
    if problem_text.isEmpty then []
    else
      (((PyStr.split ',' problem_text).map PyStr.strip).filter
        PyStr.isDigitStr).map String.mk

end UpdateReadme

namespace SpecClaim

/-- Right-only trimming of one line ("trimming trailing whitespace"). -/
def rstrip (l : List Char) : List Char :=
  (l.reverse.dropWhile PyStr.isPySpace).reverse

/-- The line decomposition in the sense of Python `splitlines` restricted to
`\n` terminators: a trailing newline produces no extra empty line. -/
def splitLines (s : String) : List (List Char) :=
  if s.data.isEmpty then []
  else
    let parts := PyStr.split '\n' s.data
    if parts.getLast? = some [] then parts.dropLast else parts

/-- The output normalisation exactly as worded by the spec sentence behind
claim C4 ("trimming trailing whitespace per line and joining the lines with a
single newline separator"), written from the spec's words — not from the
source — for comparison against the implemented `normalize_output`. -/
def trailingTrimNormalize (s : String) : String :=
  String.mk (PyStr.joinWith ['\n'] ((splitLines s).map rstrip))

/-- The normalisation as amended by the observed behaviour of the source
("trimming whitespace from both ends of the whole output and of every line,
joining the lines with a single newline separator"), written from that
amended wording for comparison against the implemented `normalize_output`. -/
def bothTrimNormalize (s : String) : String :=
  String.mk (PyStr.joinWith ['\n']
    ((PyStr.split '\n' (PyStr.strip s.data)).map PyStr.strip))

end SpecClaim
theorem PyStr.split_ne_nil (sep : Char) (l : List Char) : PyStr.split sep l ≠ [] := by
  cases l with
  | nil => simp [PyStr.split]
  | cons c rest =>
    simp only [PyStr.split]
    split <;> simp

theorem PyStr.split_cons_sep (sep : Char) (rest : List Char) :
    PyStr.split sep (sep :: rest) = [] :: PyStr.split sep rest := by
  simp [PyStr.split]

theorem PyStr.split_cons_ne (sep c : Char) (rest : List Char) (h : c ≠ sep) :
    PyStr.split sep (c :: rest) =
      (c :: (PyStr.split sep rest).headD []) :: (PyStr.split sep rest).tail := by
  simp [PyStr.split, h]

/-- Splitting a string that starts with a separator-free block followed by the
separator detaches that block as the first field. -/
theorem PyStr.split_block_append (sep : Char) (x rest : List Char) (hx : sep ∉ x) :
    PyStr.split sep (x ++ sep :: rest) = x :: PyStr.split sep rest := by
  induction x with
  | nil => simpa using PyStr.split_cons_sep sep rest
  | cons c x' ih =>
    have hc : c ≠ sep := by
      intro h; exact hx (h ▸ List.mem_cons_self c x')
    have hx' : sep ∉ x' := fun h => hx (List.mem_cons_of_mem c h)
    rw [List.cons_append, PyStr.split_cons_ne sep c _ hc, ih hx']
    simp

/-- Splitting a separator-free string yields that single field. -/
theorem PyStr.split_no_sep (sep : Char) (x : List Char) (hx : sep ∉ x) :
    PyStr.split sep x = [x] := by
  induction x with
  | nil => rfl
  | cons c x' ih =>
    have hc : c ≠ sep := by
      intro h; exact hx (h ▸ List.mem_cons_self c x')
    have hx' : sep ∉ x' := fun h => hx (List.mem_cons_of_mem c h)
    rw [PyStr.split_cons_ne sep c _ hc, ih hx']
    simp

theorem PyStr.dropWhile_of_head_neg {p : Char → Bool} {c : Char} {l : List Char}
    (h : p c = false) : List.dropWhile p (c :: l) = c :: l := by
  simp [List.dropWhile, h]

/-- A string whose characters are all non-whitespace is unchanged by `strip`. -/
theorem PyStr.strip_of_no_space {l : List Char} (h : ∀ c ∈ l, PyStr.isPySpace c = false) :
    PyStr.strip l = l := by
  unfold PyStr.strip
  have h1 : l.dropWhile PyStr.isPySpace = l := by
    cases l with
    | nil => rfl
    | cons c rest => exact PyStr.dropWhile_of_head_neg (h c (List.mem_cons_self c rest))
  rw [h1]
  have h2 : l.reverse.dropWhile PyStr.isPySpace = l.reverse := by
    cases hr : l.reverse with
    | nil => rfl
    | cons c rest =>
      have hc : c ∈ l := by
        have : c ∈ l.reverse := hr ▸ List.mem_cons_self c rest
        exact List.mem_reverse.mp this
      rw [← hr]
      rw [hr]
      exact PyStr.dropWhile_of_head_neg (h c hc)
  rw [h2, List.reverse_reverse]

theorem PyStr.strip_cons_space (l : List Char) : PyStr.strip (' ' :: l) = PyStr.strip l := by
  unfold PyStr.strip
  have : List.dropWhile PyStr.isPySpace (' ' :: l) = List.dropWhile PyStr.isPySpace l := by
    simp [List.dropWhile, PyStr.isPySpace]
  rw [this]


theorem PyStr.removeEllipsis_cons_ne (c : Char) (t : List Char) (hc : c ≠ '.') :
    PyStr.removeEllipsis (c :: t) = c :: PyStr.removeEllipsis t := by
  match t with
  | [] => rfl
  | [d] => rfl
  | d :: e :: rest => simp [PyStr.removeEllipsis, hc]

theorem PyStr.removeEllipsis_dots (rest : List Char) :
    PyStr.removeEllipsis ('.' :: '.' :: '.' :: rest) = PyStr.removeEllipsis rest := by
  simp [PyStr.removeEllipsis]

/-- `replace('...', '')` leaves a dot-free prefix untouched. -/
theorem PyStr.removeEllipsis_append_of_no_dot (l m : List Char) (h : '.' ∉ l) :
    PyStr.removeEllipsis (l ++ m) = l ++ PyStr.removeEllipsis m := by
  induction l with
  | nil => rfl
  | cons c l' ih =>
    have hc : c ≠ '.' := fun hx => h (hx ▸ List.mem_cons_self c l')
    have h' : '.' ∉ l' := fun hx => h (List.mem_cons_of_mem c hx)
    rw [List.cons_append, PyStr.removeEllipsis_cons_ne c _ hc, ih h']
    simp

theorem PyRat.toRat_sub (a b : PyRat) (ha : 0 < a.den) (hb : 0 < b.den) :
    (PyRat.sub a b).toRat = a.toRat - b.toRat := by
  have ha' : ((a.den : ℚ)) ≠ 0 := by exact_mod_cast ha.ne'
  have hb' : ((b.den : ℚ)) ≠ 0 := by exact_mod_cast hb.ne'
  simp only [PyRat.sub, PyRat.toRat]
  push_cast
  field_simp
  ring

theorem PyRat.toRat_pyabs (a : PyRat) : (PyRat.pyabs a).toRat = |a.toRat| := by
  simp only [PyRat.pyabs, PyRat.toRat]
  rw [abs_div, abs_of_nonneg (show (0 : ℚ) ≤ (a.den : ℚ) by positivity)]
  push_cast
  ring

theorem PyRat.blt_iff (a b : PyRat) (ha : 0 < a.den) (hb : 0 < b.den) :
    PyRat.blt a b = true ↔ a.toRat < b.toRat := by
  have ha' : (0 : ℚ) < (a.den : ℚ) := by exact_mod_cast ha
  have hb' : (0 : ℚ) < (b.den : ℚ) := by exact_mod_cast hb
  simp only [PyRat.blt, PyRat.toRat, decide_eq_true_eq]
  constructor
  · intro h
    rw [div_lt_div_iff ha' hb']
    exact_mod_cast h
  · intro h
    rw [div_lt_div_iff ha' hb'] at h
    exact_mod_cast h

theorem PyRat.toRat_pymax (a b : PyRat) (ha : 0 < a.den) (hb : 0 < b.den) :
    (PyRat.pymax a b).toRat = max a.toRat b.toRat := by
  simp only [PyRat.pymax]
  by_cases h : PyRat.blt a b = true
  · rw [if_pos h, max_eq_right (le_of_lt ((PyRat.blt_iff a b ha hb).mp h))]
  · rw [if_neg h]
    have hle : b.toRat ≤ a.toRat := by
      by_contra hlt
      exact h ((PyRat.blt_iff a b ha hb).mpr (lt_of_not_le hlt))
    rw [max_eq_left hle]

theorem PyRat.toRat_oneOverTenPow (n : Nat) :
    (PyRat.oneOverTenPow n).toRat = 1 / 10 ^ n := by
  simp only [PyRat.oneOverTenPow, PyRat.toRat]
  push_cast
  ring

theorem PyRat.toRat_div (a b : PyRat) (ha : 0 < a.den) (hb : 0 < b.den)
    (hbn : b.num ≠ 0) : (PyRat.div a b).toRat = a.toRat / b.toRat := by
  have ha' : ((a.den : ℚ)) ≠ 0 := by exact_mod_cast ha.ne'
  have hb' : ((b.den : ℚ)) ≠ 0 := by exact_mod_cast hb.ne'
  have hbn' : ((b.num : ℚ)) ≠ 0 := by exact_mod_cast hbn
  simp only [PyRat.div, PyRat.toRat]
  rcases lt_trichotomy b.num 0 with h | h | h
  · have hsgn : Int.sign b.num = -1 := Int.sign_eq_neg_one_of_neg h
    have hval : ((b.num.natAbs : ℚ)) = -(b.num : ℚ) := by
      rw [Nat.cast_natAbs, abs_of_neg h]
      push_cast
      ring
    rw [hsgn]
    push_cast [hval]
    field_simp
  · exact absurd h hbn
  · have hsgn : Int.sign b.num = 1 := Int.sign_eq_one_of_pos h
    have hval : ((b.num.natAbs : ℚ)) = (b.num : ℚ) := by
      rw [Nat.cast_natAbs, abs_of_pos h]
    rw [hsgn]
    push_cast [hval]
    field_simp

theorem PyRat.sub_den_pos (a b : PyRat) (ha : 0 < a.den) (hb : 0 < b.den) :
    0 < (PyRat.sub a b).den := Nat.mul_pos ha hb

theorem PyRat.pyabs_den_eq (a : PyRat) : (PyRat.pyabs a).den = a.den := rfl

theorem PyFloat.applyExp_den_pos (mant : PyRat) (t : List Char) (r : PyRat)
    (h : PyFloat.applyExp mant t = some r) (hm : 0 < mant.den) : 0 < r.den := by
  simp only [PyFloat.applyExp] at h
  split at h
  · exact absurd h (by simp)
  · rw [Option.some_inj] at h
    subst h
    split
    · exact Nat.mul_pos hm (by norm_num [PyRat.tenPow])
    · exact Nat.mul_pos hm (by simp only [PyRat.oneOverTenPow]; positivity)

theorem PyFloat.ofDecimal_den_pos (neg : Bool) (ip fp : List Char) :
    0 < (PyFloat.ofDecimal neg ip fp).den := by
  simp only [PyFloat.ofDecimal]
  positivity

theorem PyFloat.parse_den_pos (s : String) (r : PyRat)
    (h : PyFloat.parse s = some r) : 0 < r.den := by
  simp only [PyFloat.parse] at h
  split at h
  · exact absurd h (by simp)
  · split at h
    · rw [Option.some_inj] at h
      subst h
      exact PyFloat.ofDecimal_den_pos _ _ _
    · exact PyFloat.applyExp_den_pos _ _ _ h (PyFloat.ofDecimal_den_pos _ _ _)
    · exact PyFloat.applyExp_den_pos _ _ _ h (PyFloat.ofDecimal_den_pos _ _ _)
    · exact absurd h (by simp)

theorem MultiTestRunner.filter_true_add_filter_false (l : List Bool) :
    (l.filter (fun b => b = true)).length + (l.filter (fun b => b = false)).length
      = l.length := by
  induction l with
  | nil => rfl
  | cons b t ih =>
    cases b
    case false =>
      have h1 : List.filter (fun b => b = true) (false :: t)
          = List.filter (fun b => b = true) t := by simp
      have h2 : List.filter (fun b => b = false) (false :: t)
          = false :: List.filter (fun b => b = false) t := by simp
      rw [h1, h2, List.length_cons, List.length_cons]
      omega
    case true =>
      have h1 : List.filter (fun b => b = true) (true :: t)
          = true :: List.filter (fun b => b = true) t := by simp
      have h2 : List.filter (fun b => b = false) (true :: t)
          = List.filter (fun b => b = false) t := by simp
      rw [h1, h2, List.length_cons, List.length_cons]
      omega

/-- C1: for a compiled run with at least one sample test, both runners decide
the verdict exactly by the counts — all samples passing with no generated
tests or at least one generated pass gives PASS, all samples passing with a
positive generated total but zero generated passes gives PARTIAL_PASS, a
strict subset of samples passing gives PARTIAL_PASS, and zero sample passes
gives FAIL. -/
theorem c1_sample_verdict (s g : List Bool) (h : s ≠ []) :
    (MultiTestRunner.judge_multi (MultiTestRunner.run_test_suite s)
        (MultiTestRunner.run_test_suite g)).1 =
      (if (s.filter (fun b => b = true)).length = s.length then
        if g.length = 0 ∨ 0 < (g.filter (fun b => b = true)).length then "PASS"
        else "PARTIAL_PASS"
      else if 0 < (s.filter (fun b => b = true)).length then "PARTIAL_PASS"
      else "FAIL") ∧
    TestRunner.judge_test_runner (MultiTestRunner.run_test_suite s)
        (MultiTestRunner.run_test_suite g) =
      (if (s.filter (fun b => b = true)).length = s.length then
        if g.length = 0 ∨ 0 < (g.filter (fun b => b = true)).length then "PASS"
        else "PARTIAL_PASS"
      else if 0 < (s.filter (fun b => b = true)).length then "PARTIAL_PASS"
      else "FAIL") := by
  have hs := MultiTestRunner.filter_true_add_filter_false s
  have hg := MultiTestRunner.filter_true_add_filter_false g
  have hlen : 0 < s.length := List.length_pos.mpr h
  unfold MultiTestRunner.judge_multi TestRunner.judge_test_runner
    MultiTestRunner.run_test_suite
  dsimp only
  refine ⟨?_, ?_⟩ <;>
    (split_ifs <;> first | rfl | (exfalso; omega))

theorem c1_sample_verdict_witness :
    (MultiTestRunner.judge_multi (MultiTestRunner.run_test_suite [true, false])
        (MultiTestRunner.run_test_suite [true])).1 = "PARTIAL_PASS" ∧
    TestRunner.judge_test_runner (MultiTestRunner.run_test_suite [true, false])
        (MultiTestRunner.run_test_suite [true]) = "PARTIAL_PASS" := by
  obtain ⟨h1, h2⟩ := c1_sample_verdict [true, false] [true] (by decide)
  constructor
  · rw [h1]; decide
  · rw [h2]; decide

/-- C2, counterexample: with zero sample and zero generated tests after a
successful compilation, scripts/test_runner.py decides FAIL, not the
PARTIAL_PASS the claim asserts for both runner implementations. -/
theorem c2_counterexample :
    TestRunner.judge_test_runner (MultiTestRunner.run_test_suite [])
        (MultiTestRunner.run_test_suite []) = "FAIL" ∧
    ("FAIL" : String) ≠ "PARTIAL_PASS" := by decide

/-- C2 as amended: with both test totals zero after a successful compilation,
scripts/multi_test_runner.py returns PARTIAL_PASS and records the
compilation-only caveat in the result's error list, while scripts/test_runner.py
returns FAIL (and no caveat). -/
theorem c2_zero_tests_verdict :
    (∀ pid author cf se,
      (MultiTestRunner.run_single_problem_test pid author cf true true "" true se
          [] []).result = "PARTIAL_PASS" ∧
      (MultiTestRunner.run_single_problem_test pid author cf true true "" true se
          [] []).errors = ["테스트케이스 없음 - 컴파일만 확인됨"]) ∧
    TestRunner.judge_test_runner (MultiTestRunner.run_test_suite [])
        (MultiTestRunner.run_test_suite []) = "FAIL" := by
  refine ⟨fun pid author cf se => ⟨rfl, rfl⟩, by decide⟩

/-- C3: when the page scrape fails on every attempt (the standalone fetcher
exits nonzero, absorbed by the runner as a failed search), the fallback files
still provide a ProblemInfo with explanatory placeholder text and an empty
sample list, persisted alongside empty test files, and
`run_single_problem_test` completes with a verdict computed from the loaded
test cases — it does not abort with the ERROR verdict. -/
theorem c3_scrape_failure_fallback (pid author cf se : String) (g : List Bool) :
    (MultiTestRunner.create_fallback_files pid).info.samples = [] ∧
    (MultiTestRunner.create_fallback_files pid).info.description =
      "문제 정보를 가져올 수 없습니다. https://www.acmicpc.net/problem/" ++ pid ++
        " 에서 직접 확인해주세요." ∧
    (MultiTestRunner.create_fallback_files pid).sample_tests.test_cases = [] ∧
    (MultiTestRunner.create_fallback_files pid).generated_tests.test_cases = [] ∧
    FetchBojProblem.search_success_of_exit (FetchBojProblem.main_exit_code false)
      = false ∧
    (MultiTestRunner.run_single_problem_test pid author cf true true "" false se
        [] g).result =
      (MultiTestRunner.judge_multi (MultiTestRunner.run_test_suite [])
        (MultiTestRunner.run_test_suite g)).1 ∧
    (MultiTestRunner.run_single_problem_test pid author cf true true "" false se
        [] g).result ≠ "ERROR" := by
  have hjudge : ∀ (sr gr : MultiTestRunner.SuiteResult),
      (MultiTestRunner.judge_multi sr gr).1 ≠ "ERROR" := by
    intro sr gr
    unfold MultiTestRunner.judge_multi
    split_ifs <;> decide
  refine ⟨rfl, rfl, rfl, rfl, rfl, rfl, ?_⟩
  have heq : (MultiTestRunner.run_single_problem_test pid author cf true true ""
        false se [] g).result =
      (MultiTestRunner.judge_multi (MultiTestRunner.run_test_suite [])
        (MultiTestRunner.run_test_suite g)).1 := rfl
  rw [heq]
  exact hjudge _ _

/-- C4, counterexample: the comparison is not equality after trailing-trim
normalisation — the source also trims leading whitespace (and the whole
string), so `" 3"` and `"3"` compare equal although their trailing-trimmed
forms differ. -/
theorem c4_counterexample :
    MultiTestRunner.compare_outputs " 3" "3" none = true ∧
    TestRunner.compare_outputs " 3" "3" = true ∧
    SpecClaim.trailingTrimNormalize " 3" ≠ SpecClaim.trailingTrimNormalize "3" := by
  decide

/-- C4 as amended: both runners compare for exact equality of the normalised
strings, where normalisation trims whitespace from both ends of the whole
output and of every line and joins lines with a single newline; in particular
`compare_outputs("3\n", "3")` is true (trailing-newline-insensitive). -/
theorem c4_normalized_equality :
    (∀ s, MultiTestRunner.normalize_output s = SpecClaim.bothTrimNormalize s) ∧
    (∀ s, TestRunner.normalize_output s = SpecClaim.bothTrimNormalize s) ∧
    (∀ e a, TestRunner.compare_outputs e a = true ↔
      TestRunner.normalize_output e = TestRunner.normalize_output a) ∧
    (∀ e a, MultiTestRunner.compare_outputs e a none = true ↔
      MultiTestRunner.normalize_output e = MultiTestRunner.normalize_output a) ∧
    MultiTestRunner.compare_outputs "3\n" "3" none = true ∧
    TestRunner.compare_outputs "3\n" "3" = true := by
  have hnorm : ∀ s, MultiTestRunner.normalize_output s = SpecClaim.bothTrimNormalize s := by
    intro s
    unfold MultiTestRunner.normalize_output SpecClaim.bothTrimNormalize
    split_ifs with h
    · have hd : s.data = [] := by
        cases hd' : s.data with
        | nil => rfl
        | cons c t => rw [hd'] at h; exact absurd h (by simp)
      rw [hd]
      rfl
    · rfl
  refine ⟨hnorm, fun s => hnorm s, ?_, ?_, by decide, by decide⟩
  · intro e a
    unfold TestRunner.compare_outputs
    exact beq_iff_eq
  · intro e a
    by_cases h : MultiTestRunner.normalize_output e = MultiTestRunner.normalize_output a
    · simp [MultiTestRunner.compare_outputs, h]
    · simp [MultiTestRunner.compare_outputs, h]

theorem MultiTestRunner.pymax_divisor_pos (e : PyRat) (he : 0 < e.den) :
    0 < (PyRat.pymax (PyRat.pyabs e) (PyRat.oneOverTenPow 10)).num ∧
    0 < (PyRat.pymax (PyRat.pyabs e) (PyRat.oneOverTenPow 10)).den := by
  unfold PyRat.pymax
  split_ifs with h
  · constructor
    · norm_num [PyRat.oneOverTenPow]
    · simp only [PyRat.oneOverTenPow]
      positivity
  · have h1 : (1 : ℤ) * (e.den : ℤ) ≤ |e.num| * 10 ^ 10 := by
      simp only [PyRat.blt, PyRat.pyabs, PyRat.oneOverTenPow, decide_eq_true_eq,
        not_lt] at h
      push_cast at h
      linarith
    have h2 : (0 : ℤ) < (e.den : ℤ) := by exact_mod_cast he
    have h3 : (0 : ℤ) < |e.num| := by
      by_contra h4
      push_neg at h4
      have h5 : |e.num| = 0 := le_antisymm h4 (abs_nonneg _)
      rw [h5] at h1
      simp at h1
      omega
    exact ⟨h3, he⟩

/-- C5, counterexample: with expected `"0"`, actual `"0.000000001"` and the
allow-listed problem 1008, the normalised strings differ, both sides parse,
and the absolute error is exactly `1e-9` — i.e. at most `1e-9` — yet the
comparison rejects, because the source accepts only errors strictly below
`1e-9`. -/
theorem c5_counterexample :
    MultiTestRunner.compare_outputs "0" "0.000000001" (some "1008") = false ∧
    MultiTestRunner.normalize_output "0" ≠
      MultiTestRunner.normalize_output "0.000000001" ∧
    ("1008" ∈ MultiTestRunner.float_problems) ∧
    PyFloat.parse (MultiTestRunner.normalize_output "0") = some ⟨0, 1⟩ ∧
    PyFloat.parse (MultiTestRunner.normalize_output "0.000000001")
      = some ⟨1, 10 ^ 9⟩ ∧
    |PyRat.toRat ⟨0, 1⟩ - PyRat.toRat ⟨1, 10 ^ 9⟩| ≤ 1 / 10 ^ 9 := by
  refine ⟨by decide, by decide, by decide, by decide, by decide, ?_⟩
  have h0 : PyRat.toRat ⟨0, 1⟩ = 0 := by norm_num [PyRat.toRat]
  have h1 : PyRat.toRat ⟨1, 10 ^ 9⟩ = 1 / 10 ^ 9 := by
    simp only [PyRat.toRat]
    push_cast
    norm_num
  rw [h0, h1, zero_sub, abs_neg, abs_of_nonneg (by positivity)]

/-- C5 as amended: for normalised outputs that differ, the comparison succeeds
iff the problem id is on the float allow-list, both normalised strings parse
as numbers, and the absolute or relative error is strictly below `1e-9`
(strictly, not "at most"); a parse failure or an id off the allow-list yields
the exact-equality result, i.e. failure. -/
theorem c5_float_fallback (expected actual : String) (pid : String)
    (hne : MultiTestRunner.normalize_output expected ≠
      MultiTestRunner.normalize_output actual) :
    MultiTestRunner.compare_outputs expected actual (some pid) = true ↔
      (pid ∈ MultiTestRunner.float_problems ∧
       ∃ ef af,
         PyFloat.parse (MultiTestRunner.normalize_output expected) = some ef ∧
         PyFloat.parse (MultiTestRunner.normalize_output actual) = some af ∧
         (|ef.toRat - af.toRat| < 1 / 10 ^ 9 ∨
          |ef.toRat - af.toRat| / max |ef.toRat| (1 / 10 ^ 10) < 1 / 10 ^ 9)) := by
  unfold MultiTestRunner.compare_outputs
  dsimp only
  rw [if_neg hne]
  by_cases hmem : pid ∈ MultiTestRunner.float_problems
  · rw [if_pos (decide_eq_true hmem)]
    cases hpe : PyFloat.parse (MultiTestRunner.normalize_output expected) with
    | none => simp [hpe]
    | some ef =>
      cases hpa : PyFloat.parse (MultiTestRunner.normalize_output actual) with
      | none => simp
      | some af =>
        have hde : 0 < ef.den := PyFloat.parse_den_pos _ _ hpe
        have hda : 0 < af.den := PyFloat.parse_den_pos _ _ hpa
        obtain ⟨hdvn, hdvd⟩ := MultiTestRunner.pymax_divisor_pos ef hde
        have hsubden : 0 < (PyRat.pyabs (PyRat.sub ef af)).den := by
          rw [PyRat.pyabs_den_eq]
          exact PyRat.sub_den_pos ef af hde hda
        have h9den : 0 < (PyRat.oneOverTenPow 9).den := by
          simp only [PyRat.oneOverTenPow]
          positivity
        have h10den : 0 < (PyRat.oneOverTenPow 10).den := by
          simp only [PyRat.oneOverTenPow]
          positivity
        have e1 : (PyRat.pyabs (PyRat.sub ef af)).toRat = |ef.toRat - af.toRat| := by
          rw [PyRat.toRat_pyabs, PyRat.toRat_sub ef af hde hda]
        have b1 : PyRat.blt (PyRat.pyabs (PyRat.sub ef af)) (PyRat.oneOverTenPow 9)
            = true ↔ |ef.toRat - af.toRat| < 1 / 10 ^ 9 := by
          rw [PyRat.blt_iff _ _ hsubden h9den, e1, PyRat.toRat_oneOverTenPow]
        have hdivden : 0 < (PyRat.div (PyRat.pyabs (PyRat.sub ef af))
            (PyRat.pymax (PyRat.pyabs ef) (PyRat.oneOverTenPow 10))).den :=
          Nat.mul_pos hsubden (Int.natAbs_pos.mpr (ne_of_gt hdvn))
        have e2 : (PyRat.div (PyRat.pyabs (PyRat.sub ef af))
              (PyRat.pymax (PyRat.pyabs ef) (PyRat.oneOverTenPow 10))).toRat =
            |ef.toRat - af.toRat| / max |ef.toRat| (1 / 10 ^ 10) := by
          rw [PyRat.toRat_div _ _ hsubden hdvd (ne_of_gt hdvn), e1,
            PyRat.toRat_pymax _ _ (show 0 < (PyRat.pyabs ef).den from hde) h10den,
            PyRat.toRat_pyabs, PyRat.toRat_oneOverTenPow]
        have b2 : PyRat.blt (PyRat.div (PyRat.pyabs (PyRat.sub ef af))
              (PyRat.pymax (PyRat.pyabs ef) (PyRat.oneOverTenPow 10)))
              (PyRat.oneOverTenPow 9) = true ↔
            |ef.toRat - af.toRat| / max |ef.toRat| (1 / 10 ^ 10) < 1 / 10 ^ 9 := by
          rw [PyRat.blt_iff _ _ hdivden h9den, e2, PyRat.toRat_oneOverTenPow]
        constructor
        · intro hb
          rw [Bool.or_eq_true] at hb
          refine ⟨hmem, ef, af, rfl, rfl, ?_⟩
          rcases hb with hb | hb
          · exact Or.inl (b1.mp hb)
          · exact Or.inr (b2.mp hb)
        · rintro ⟨-, ef', af', hef', haf', hor⟩
          rw [Option.some_inj] at hef' haf'
          subst hef'
          subst haf'
          rw [Bool.or_eq_true]
          rcases hor with hor | hor
          · exact Or.inl (b1.mpr hor)
          · exact Or.inr (b2.mpr hor)
  · rw [if_neg (by simp [hmem])]
    simp [hmem]

theorem c5_float_fallback_witness :
    MultiTestRunner.normalize_output "0.3333333333333333" ≠
      MultiTestRunner.normalize_output "0.333333333333333333" ∧
    MultiTestRunner.compare_outputs "0.3333333333333333" "0.333333333333333333"
      (some "1008") = true ∧
    MultiTestRunner.compare_outputs "0.3333333333333333" "0.333333333333333333"
      (some "9999") = false := by
  refine ⟨by decide, ?_, ?_⟩
  · have h := c5_float_fallback "0.3333333333333333" "0.333333333333333333" "1008"
      (by decide)
    rw [h]
    refine ⟨by decide, ⟨3333333333333333, 10 ^ 16⟩, ⟨333333333333333333, 10 ^ 18⟩,
      by decide, by decide, Or.inl ?_⟩
    simp only [PyRat.toRat]
    push_cast
    rw [abs_of_nonpos (by norm_num)]
    norm_num
  · have h := c5_float_fallback "0.3333333333333333" "0.333333333333333333" "9999"
      (by decide)
    cases hb : MultiTestRunner.compare_outputs "0.3333333333333333"
        "0.333333333333333333" (some "9999") with
    | false => rfl
    | true => exact absurd (h.mp hb).1 (by decide)

theorem ExtractPrInfo.extract_some_shape (p a pid : String)
    (h : ExtractPrInfo.extract_info_from_path p = some (a, pid)) :
    pid.data ≠ [] ∧ pid.data.all Char.isDigit = true ∧ a.data ≠ [] := by
  unfold ExtractPrInfo.extract_info_from_path at h
  split at h
  · split_ifs at h with hcond
    · rw [Option.some_inj] at h
      obtain ⟨h1, h2, h3, h4⟩ := hcond
      injection h with ha hp
      subst ha
      subst hp
      exact ⟨h3, h4, h2⟩
  · exact absurd h (by simp)

theorem ExtractPrInfo.filter_author_files_mem
    (files : List ExtractPrInfo.ChangedFile) (pr_author : String)
    (r : ExtractPrInfo.AuthorFile)
    (hr : r ∈ ExtractPrInfo.filter_author_files files pr_author) :
    r.author = pr_author ∧
    ExtractPrInfo.extract_info_from_path r.code_file
      = some (r.author, r.problem_id) := by
  induction files with
  | nil => cases hr
  | cons f rest ih =>
    unfold ExtractPrInfo.filter_author_files at hr
    split at hr
    · exact ih hr
    · rename_i author pid heq
      split_ifs at hr with hauth
      · rcases List.mem_cons.mp hr with h | h
        · subst h
          exact ⟨hauth, heq⟩
        · exact ih h
      · exact ih hr

theorem ExtractPrInfo.maxByPid_mem (l : List ExtractPrInfo.AuthorFile)
    (x : ExtractPrInfo.AuthorFile) (h : ExtractPrInfo.maxByPid l = some x) :
    x ∈ l := by
  induction l generalizing x with
  | nil => cases h
  | cons f rest ih =>
    unfold ExtractPrInfo.maxByPid at h
    split at h
    · rw [Option.some_inj] at h
      subst h
      exact List.mem_cons_self _ _
    · rename_i b hb
      split_ifs at h
      · rw [Option.some_inj] at h
        subst h
        exact List.mem_cons_of_mem _ (ih _ hb)
      · rw [Option.some_inj] at h
        subst h
        exact List.mem_cons_self _ _

theorem ExtractPrInfo.select_primary_mem (l : List ExtractPrInfo.AuthorFile)
    (x : ExtractPrInfo.AuthorFile)
    (h : ExtractPrInfo.select_primary_problem l = some x) : x ∈ l := by
  unfold ExtractPrInfo.select_primary_problem at h
  by_cases h1 : l.isEmpty = true
  · rw [if_pos h1] at h
    cases h
  · rw [if_neg h1] at h
    dsimp only at h
    by_cases h2 : (!(List.filter (fun f => f.status = "added") l).isEmpty) = true
    · rw [if_pos h2] at h
      exact (List.mem_filter.mp (ExtractPrInfo.maxByPid_mem _ _ h)).1
    · rw [if_neg h2] at h
      exact ExtractPrInfo.maxByPid_mem _ _ h

/-- C6, counterexample: the extractor applies no numeric-range restriction —
the path `bob/99999/Main.java`, which the claim says is rejected for being out
of the 1–30000 range, parses successfully and produces a record. -/
theorem c6_counterexample :
    ExtractPrInfo.extract_info_from_path "bob/99999/Main.java"
      = some ("bob", "99999") ∧
    ExtractPrInfo.filter_author_files [⟨"bob/99999/Main.java", "added", 1⟩] "bob"
      = [⟨"bob", "99999", "bob/99999/Main.java", "java", "added", 1⟩] := by
  decide

/-- C6 as amended: the extractor parses `<author>/<problem_id>/Main.java`
paths by regex (e.g. `alice/1000/Main.java` yields author alice, problem id
1000), accepting any nonempty all-digit problem id with no numeric-range
restriction; a path that does not match is skipped non-fatally, leaving the
remaining files' records unchanged. -/
theorem c6_path_parsing (f : ExtractPrInfo.ChangedFile)
    (rest : List ExtractPrInfo.ChangedFile) (a : String)
    (hskip : ExtractPrInfo.extract_info_from_path f.filename = none) :
    ExtractPrInfo.extract_info_from_path "alice/1000/Main.java"
      = some ("alice", "1000") ∧
    ExtractPrInfo.filter_author_files (f :: rest) a
      = ExtractPrInfo.filter_author_files rest a ∧
    (∀ files r, r ∈ ExtractPrInfo.filter_author_files files a →
      r.problem_id.data ≠ [] ∧ r.problem_id.data.all Char.isDigit = true) := by
  refine ⟨by decide, ?_, ?_⟩
  · conv_lhs => rw [ExtractPrInfo.filter_author_files]
    rw [hskip]
  · intro files r hr
    obtain ⟨-, hex⟩ := ExtractPrInfo.filter_author_files_mem files a r hr
    have hd := ExtractPrInfo.extract_some_shape _ _ _ hex
    exact ⟨hd.1, hd.2.1⟩

theorem c6_path_parsing_witness :
    ExtractPrInfo.filter_author_files
      [⟨"README.md", "modified", 0⟩, ⟨"alice/1000/Main.java", "added", 3⟩]
      "alice" =
    ExtractPrInfo.filter_author_files [⟨"alice/1000/Main.java", "added", 3⟩]
      "alice" :=
  (c6_path_parsing ⟨"README.md", "modified", 0⟩
    [⟨"alice/1000/Main.java", "added", 3⟩] "alice" (by decide)).2.1

/-- C9: every record kept by the extractor carries the pull-request author's
login as its author; a convention-matching file whose path author differs
from the PR author is silently dropped; and the selected primary problem
therefore also has the PR author. -/
theorem c9_author_filter :
    (∀ files a r, r ∈ ExtractPrInfo.filter_author_files files a →
      r.author = a) ∧
    (∀ (f : ExtractPrInfo.ChangedFile) a a2 pid,
      ExtractPrInfo.extract_info_from_path f.filename = some (a2, pid) →
      a2 ≠ a → ExtractPrInfo.filter_author_files [f] a = []) ∧
    (∀ files a p,
      ExtractPrInfo.select_primary_problem
        (ExtractPrInfo.filter_author_files files a) = some p → p.author = a) := by
  refine ⟨?_, ?_, ?_⟩
  · intro files a r hr
    exact (ExtractPrInfo.filter_author_files_mem files a r hr).1
  · intro f a a2 pid hex hne
    conv_lhs => rw [ExtractPrInfo.filter_author_files]
    rw [hex]
    simp only [if_neg hne]
    rfl
  · intro files a p hp
    exact (ExtractPrInfo.filter_author_files_mem files a p
      (ExtractPrInfo.select_primary_mem _ _ hp)).1

theorem c9_author_filter_witness :
    ExtractPrInfo.filter_author_files
      [⟨"carol/2000/Main.java", "added", 1⟩] "alice" = [] :=
  c9_author_filter.2.1 ⟨"carol/2000/Main.java", "added", 1⟩ "alice" "carol"
    "2000" (by decide) (by decide)

theorem UpdateReadme.getCell_setCell (pd : UpdateReadme.ParticipantData)
    (wd : UpdateReadme.Weekday) (cell : List String) :
    UpdateReadme.getCell (UpdateReadme.setCell pd wd cell) wd = cell := by
  cases wd <;> rfl

theorem UpdateReadme.findRow_updateRow
    (ps : List (String × UpdateReadme.ParticipantData)) (a : String)
    (pd : UpdateReadme.ParticipantData)
    (h : (UpdateReadme.findRow ps a).isSome) :
    UpdateReadme.findRow (UpdateReadme.updateRow ps a pd) a = some pd := by
  induction ps with
  | nil => simp [UpdateReadme.findRow] at h
  | cons kv rest ih =>
    obtain ⟨k, v⟩ := kv
    by_cases hk : k = a
    · simp [UpdateReadme.updateRow, UpdateReadme.findRow, hk]
    · simp only [UpdateReadme.updateRow, UpdateReadme.findRow, if_neg hk] at h ⊢
      exact ih h

theorem UpdateReadme.findRow_append
    (ps : List (String × UpdateReadme.ParticipantData)) (a : String)
    (pd : UpdateReadme.ParticipantData)
    (h : UpdateReadme.findRow ps a = none) :
    UpdateReadme.findRow (ps ++ [(a, pd)]) a = some pd := by
  induction ps with
  | nil => simp [UpdateReadme.findRow]
  | cons kv rest ih =>
    obtain ⟨k, v⟩ := kv
    by_cases hk : k = a
    · simp [UpdateReadme.findRow, hk] at h
    · simp only [List.cons_append, UpdateReadme.findRow, if_neg hk] at h ⊢
      exact ih h

/-- If the author's row exists and already lists the problem id for the
weekday, the table update is a no-op. -/
theorem UpdateReadme.update_stable (s : UpdateReadme.WeekStats)
    (pid a : String) (wd : UpdateReadme.Weekday)
    (hnr : s.need_reset = false) (pd : UpdateReadme.ParticipantData)
    (hfind : UpdateReadme.findRow s.participants a = some pd)
    (hmem : pid ∈ UpdateReadme.getCell pd wd) :
    UpdateReadme.update_current_week_table s pid a wd = s := by
  unfold UpdateReadme.update_current_week_table
  rw [if_neg (by simp [hnr])]
  rw [hfind]
  dsimp only
  rw [if_pos hmem]

/-- C7: applying the same (problem id, author, weekday) fact twice yields
exactly one occurrence of the id in that participant's weekday cell — the
second application finds the id already present and skips the append, leaving
the document state unchanged. The hypothesis is the WeeklyStatus invariant
that a cell never lists an id twice. -/
theorem c7_idempotent_update (s : UpdateReadme.WeekStats) (pid a : String)
    (wd : UpdateReadme.Weekday)
    (hinv : ∀ pd, UpdateReadme.findRow s.participants a = some pd →
      (UpdateReadme.getCell pd wd).count pid ≤ 1) :
    UpdateReadme.update_current_week_table
        (UpdateReadme.update_current_week_table s pid a wd) pid a wd =
      UpdateReadme.update_current_week_table s pid a wd ∧
    ∃ pd, UpdateReadme.findRow
        (UpdateReadme.update_current_week_table s pid a wd).participants a
        = some pd ∧
      (UpdateReadme.getCell pd wd).count pid = 1 := by
  by_cases hreset : s.need_reset = true
  · have hs1 : UpdateReadme.update_current_week_table s pid a wd =
        ⟨[(a, UpdateReadme.setCell UpdateReadme.emptyData wd [pid])], false⟩ := by
      unfold UpdateReadme.update_current_week_table
      rw [if_pos hreset]
    have hfind1 : UpdateReadme.findRow
        (UpdateReadme.update_current_week_table s pid a wd).participants a =
        some (UpdateReadme.setCell UpdateReadme.emptyData wd [pid]) := by
      rw [hs1]
      simp [UpdateReadme.findRow]
    have hmem1 : pid ∈ UpdateReadme.getCell
        (UpdateReadme.setCell UpdateReadme.emptyData wd [pid]) wd := by
      rw [UpdateReadme.getCell_setCell]
      exact List.mem_singleton.mpr rfl
    have hneed : (UpdateReadme.update_current_week_table s pid a wd).need_reset
        = false := by rw [hs1]
    refine ⟨UpdateReadme.update_stable _ pid a wd hneed _ hfind1 hmem1,
      _, hfind1, ?_⟩
    rw [UpdateReadme.getCell_setCell]
    simp
  · have hreset' : s.need_reset = false := by simpa using hreset
    cases hfind : UpdateReadme.findRow s.participants a with
    | some pd =>
      by_cases hmem : pid ∈ UpdateReadme.getCell pd wd
      · have hs1 : UpdateReadme.update_current_week_table s pid a wd = s :=
          UpdateReadme.update_stable s pid a wd hreset' pd hfind hmem
        have hcount : (UpdateReadme.getCell pd wd).count pid = 1 := by
          have hle := hinv pd hfind
          have hge : 0 < (UpdateReadme.getCell pd wd).count pid :=
            List.count_pos_iff.mpr hmem
          omega
        refine ⟨by rw [hs1]; exact hs1, pd, ?_, hcount⟩
        rw [hs1]
        exact hfind
      · have hs1 : UpdateReadme.update_current_week_table s pid a wd =
            ⟨UpdateReadme.updateRow s.participants a
              (UpdateReadme.setCell pd wd (UpdateReadme.getCell pd wd ++ [pid])),
              s.need_reset⟩ := by
          unfold UpdateReadme.update_current_week_table
          rw [if_neg (by simp [hreset'])]
          rw [hfind]
          dsimp only
          rw [if_neg hmem]
        have hfind1 : UpdateReadme.findRow
            (UpdateReadme.update_current_week_table s pid a wd).participants a =
            some (UpdateReadme.setCell pd wd
              (UpdateReadme.getCell pd wd ++ [pid])) := by
          rw [hs1]
          exact UpdateReadme.findRow_updateRow s.participants a _
            (by rw [hfind]; rfl)
        have hmem1 : pid ∈ UpdateReadme.getCell
            (UpdateReadme.setCell pd wd (UpdateReadme.getCell pd wd ++ [pid]))
            wd := by
          rw [UpdateReadme.getCell_setCell]
          exact List.mem_append_right _ (List.mem_singleton.mpr rfl)
        have hneed : (UpdateReadme.update_current_week_table s pid a wd).need_reset
            = false := by rw [hs1]; exact hreset'
        refine ⟨UpdateReadme.update_stable _ pid a wd hneed _ hfind1 hmem1,
          _, hfind1, ?_⟩
        rw [UpdateReadme.getCell_setCell, List.count_append,
          List.count_eq_zero.mpr hmem]
        simp
    | none =>
      have hs1 : UpdateReadme.update_current_week_table s pid a wd =
          ⟨s.participants ++
              [(a, UpdateReadme.setCell UpdateReadme.emptyData wd [pid])],
            s.need_reset⟩ := by
        unfold UpdateReadme.update_current_week_table
        rw [if_neg (by simp [hreset'])]
        rw [hfind]
      have hfind1 : UpdateReadme.findRow
          (UpdateReadme.update_current_week_table s pid a wd).participants a =
          some (UpdateReadme.setCell UpdateReadme.emptyData wd [pid]) := by
        rw [hs1]
        exact UpdateReadme.findRow_append s.participants a _ hfind
      have hmem1 : pid ∈ UpdateReadme.getCell
          (UpdateReadme.setCell UpdateReadme.emptyData wd [pid]) wd := by
        rw [UpdateReadme.getCell_setCell]
        exact List.mem_singleton.mpr rfl
      have hneed : (UpdateReadme.update_current_week_table s pid a wd).need_reset
          = false := by rw [hs1]; exact hreset'
      refine ⟨UpdateReadme.update_stable _ pid a wd hneed _ hfind1 hmem1,
        _, hfind1, ?_⟩
      rw [UpdateReadme.getCell_setCell]
      simp

theorem c7_idempotent_update_witness :
    UpdateReadme.update_current_week_table
        (UpdateReadme.update_current_week_table
          ⟨[("alice", UpdateReadme.emptyData)], false⟩ "1000" "alice"
          UpdateReadme.Weekday.monday) "1000" "alice"
        UpdateReadme.Weekday.monday =
      UpdateReadme.update_current_week_table
        ⟨[("alice", UpdateReadme.emptyData)], false⟩ "1000" "alice"
        UpdateReadme.Weekday.monday ∧
    ∃ pd, UpdateReadme.findRow
        (UpdateReadme.update_current_week_table
          ⟨[("alice", UpdateReadme.emptyData)], false⟩ "1000" "alice"
          UpdateReadme.Weekday.monday).participants "alice" = some pd ∧
      (UpdateReadme.getCell pd UpdateReadme.Weekday.monday).count "1000" = 1 :=
  c7_idempotent_update ⟨[("alice", UpdateReadme.emptyData)], false⟩ "1000"
    "alice" UpdateReadme.Weekday.monday (by
      intro pd h
      simp [UpdateReadme.findRow] at h
      subst h
      simp [UpdateReadme.getCell, UpdateReadme.emptyData])

/-- C8: when the document's recorded week number/year does not match the
currently computed week, the parse flags a reset and discards all parsed
participants, and applying a new fact rebuilds the table to contain exactly
the new fact's author with that single problem id — participants of the prior
week are not carried over. -/
theorem c8_week_rollover (recorded : Option (Nat × Nat)) (cy cw : Nat)
    (old : List (String × UpdateReadme.ParticipantData)) (pid a : String)
    (wd : UpdateReadme.Weekday) (h : recorded ≠ some (cy, cw)) :
    UpdateReadme.week_header_reset recorded cy cw = true ∧
    (UpdateReadme.parse_current_week_stats recorded old cy cw).participants
      = [] ∧
    UpdateReadme.update_current_week_table
        (UpdateReadme.parse_current_week_stats recorded old cy cw) pid a wd =
      ⟨[(a, UpdateReadme.setCell UpdateReadme.emptyData wd [pid])], false⟩ := by
  have hreset : UpdateReadme.week_header_reset recorded cy cw = true := by
    cases recorded with
    | none => rfl
    | some yw =>
      obtain ⟨y, w⟩ := yw
      by_cases hy : y = cy
      · subst hy
        have hw : w ≠ cw := fun hw => h (by rw [hw])
        simp [UpdateReadme.week_header_reset, hw]
      · simp [UpdateReadme.week_header_reset, hy]
  have hparse : UpdateReadme.parse_current_week_stats recorded old cy cw =
      ⟨[], true⟩ := by
    unfold UpdateReadme.parse_current_week_stats
    rw [if_pos hreset]
  refine ⟨hreset, by rw [hparse], ?_⟩
  rw [hparse]
  unfold UpdateReadme.update_current_week_table
  rw [if_pos rfl]

theorem c8_week_rollover_witness :
    UpdateReadme.week_header_reset (some (2025, 41)) 2025 42 = true ∧
    (UpdateReadme.parse_current_week_stats (some (2025, 41))
      [("bob", UpdateReadme.emptyData)] 2025 42).participants = [] ∧
    UpdateReadme.update_current_week_table
        (UpdateReadme.parse_current_week_stats (some (2025, 41))
          [("bob", UpdateReadme.emptyData)] 2025 42) "1000" "alice"
        UpdateReadme.Weekday.monday =
      ⟨[("alice", UpdateReadme.setCell UpdateReadme.emptyData
          UpdateReadme.Weekday.monday ["1000"])], false⟩ :=
  c8_week_rollover (some (2025, 41)) 2025 42 [("bob", UpdateReadme.emptyData)]
    "1000" "alice" UpdateReadme.Weekday.monday (by decide)

theorem PyStr.isDigit_not_space (c : Char) (h : c.isDigit = true) :
    PyStr.isPySpace c = false := by
  by_contra hsp
  rw [Bool.not_eq_false] at hsp
  simp only [PyStr.isPySpace, Bool.or_eq_true, beq_iff_eq] at hsp
  rcases hsp with ((((h1 | h1) | h1) | h1) | h1) | h1 <;>
    (subst h1; exact absurd h (by decide))

theorem PyStr.strip_eq_self_of_ends (l : List Char)
    (h1 : ∀ c, l.head? = some c → PyStr.isPySpace c = false)
    (h2 : ∀ c, l.getLast? = some c → PyStr.isPySpace c = false) :
    PyStr.strip l = l := by
  unfold PyStr.strip
  have hd : l.dropWhile PyStr.isPySpace = l := by
    cases l with
    | nil => rfl
    | cons c t => exact PyStr.dropWhile_of_head_neg (h1 c rfl)
  rw [hd]
  have hr : l.reverse.dropWhile PyStr.isPySpace = l.reverse := by
    cases hrev : l.reverse with
    | nil => rfl
    | cons c t =>
      have hlast : l.getLast? = some c := by
        rw [← List.head?_reverse, hrev]
        rfl
      exact PyStr.dropWhile_of_head_neg (h2 c hlast)
  rw [hr, List.reverse_reverse]

/-- C10: rendering a weekday cell that holds more than three problem ids
truncates the rendered text to the first three ids plus an ellipsis marker,
and parsing the rendered cell back recovers exactly those first three ids —
every id after the third is lost by the render/parse round trip. -/
theorem c10_cell_roundtrip (ids : List String)
    (hdig : ∀ pid ∈ ids, pid.data ≠ [] ∧ pid.data.all Char.isDigit = true)
    (hlen : 3 < ids.length) :
    UpdateReadme.parse_problem_cell (UpdateReadme.create_problem_cell ids)
      = ids.take 3 := by
  rcases ids with _ | ⟨a, ids⟩
  · simp at hlen
  rcases ids with _ | ⟨b, ids⟩
  · simp at hlen
  rcases ids with _ | ⟨c, ids⟩
  · simp at hlen
  rcases ids with _ | ⟨d, rest⟩
  · simp at hlen
  obtain ⟨ha0, ha1⟩ := hdig a (by simp)
  obtain ⟨hb0, hb1⟩ := hdig b (by simp)
  obtain ⟨hc0, hc1⟩ := hdig c (by simp)
  have keyfacts : ∀ (x : String), x.data ≠ [] → x.data.all Char.isDigit = true →
      '.' ∉ x.data ∧ ',' ∉ x.data ∧ PyStr.strip x.data = x.data ∧
        PyStr.isDigitStr x.data = true := by
    intro x hx0 hx1
    have hmemd : ∀ ch ∈ x.data, ch.isDigit = true :=
      fun ch hch => List.all_eq_true.mp hx1 ch hch
    refine ⟨fun hmem => absurd (hmemd _ hmem) (by decide),
      fun hmem => absurd (hmemd _ hmem) (by decide),
      PyStr.strip_of_no_space
        (fun ch hch => PyStr.isDigit_not_space _ (hmemd ch hch)), ?_⟩
    obtain ⟨ch, t, hx⟩ := List.exists_cons_of_ne_nil hx0
    have hne : x.data.isEmpty = false := by rw [hx]; rfl
    simp [PyStr.isDigitStr, hne, hx1]
  obtain ⟨hadot, hacom, hsa, hfa⟩ := keyfacts a ha0 ha1
  obtain ⟨hbdot, hbcom, hsb, hfb⟩ := keyfacts b hb0 hb1
  obtain ⟨hcdot, hccom, hsc, hfc⟩ := keyfacts c hc0 hc1
  have hcreate : UpdateReadme.create_problem_cell (a :: b :: c :: d :: rest) =
      String.mk ((a.data ++ ',' :: ' ' :: (b.data ++ ',' :: ' ' :: c.data)) ++
        ['.', '.', '.']) := by
    unfold UpdateReadme.create_problem_cell
    rw [if_neg (by simp), if_pos (by simp only [List.length_cons]; omega)]
    congr 1
    simp [PyStr.joinWith, List.append_assoc]
  have hnodot : '.' ∉ a.data ++ ',' :: ' ' :: (b.data ++ ',' :: ' ' :: c.data) := by
    intro hmem
    simp only [List.mem_append, List.mem_cons] at hmem
    rcases hmem with h | h | h | h | h | h | h
    · exact hadot h
    · exact absurd h (by decide)
    · exact absurd h (by decide)
    · exact hbdot h
    · exact absurd h (by decide)
    · exact absurd h (by decide)
    · exact hcdot h
  have hrem : PyStr.removeEllipsis
      ((a.data ++ ',' :: ' ' :: (b.data ++ ',' :: ' ' :: c.data)) ++
        ['.', '.', '.']) =
      a.data ++ ',' :: ' ' :: (b.data ++ ',' :: ' ' :: c.data) := by
    rw [PyStr.removeEllipsis_append_of_no_dot _ _ hnodot,
      show PyStr.removeEllipsis ['.', '.', '.'] = [] from rfl,
      List.append_nil]
  have hJlast : (a.data ++ ',' :: ' ' :: (b.data ++ ',' :: ' ' :: c.data)).getLast?
      = c.data.getLast? := by
    rw [List.getLast?_append_of_ne_nil _ (by simp),
      show (',' :: ' ' :: (b.data ++ ',' :: ' ' :: c.data)) =
        ([',', ' '] ++ (b.data ++ ',' :: ' ' :: c.data)) from rfl,
      List.getLast?_append_of_ne_nil _ (by simp),
      List.getLast?_append_of_ne_nil _ (by simp),
      show (',' :: ' ' :: c.data) = ([',', ' '] ++ c.data) from rfl,
      List.getLast?_append_of_ne_nil _ hc0]
  have hstrip : PyStr.strip
      (a.data ++ ',' :: ' ' :: (b.data ++ ',' :: ' ' :: c.data)) =
      a.data ++ ',' :: ' ' :: (b.data ++ ',' :: ' ' :: c.data) := by
    apply PyStr.strip_eq_self_of_ends
    · intro ch hch
      obtain ⟨ach, atail, hae⟩ := List.exists_cons_of_ne_nil ha0
      rw [hae, List.cons_append, List.head?_cons, Option.some_inj] at hch
      subst hch
      exact PyStr.isDigit_not_space _
        (List.all_eq_true.mp ha1 _ (by rw [hae]; exact List.mem_cons_self _ _))
    · intro ch hch
      rw [hJlast] at hch
      exact PyStr.isDigit_not_space _
        (List.all_eq_true.mp hc1 _ (List.mem_of_mem_getLast? hch))
  have hsplit : PyStr.split ','
      (a.data ++ ',' :: ' ' :: (b.data ++ ',' :: ' ' :: c.data)) =
      [a.data, ' ' :: b.data, ' ' :: c.data] := by
    rw [show a.data ++ ',' :: ' ' :: (b.data ++ ',' :: ' ' :: c.data) =
        a.data ++ ',' :: ((' ' :: b.data) ++ ',' :: (' ' :: c.data)) from by
      simp [List.append_assoc]]
    rw [PyStr.split_block_append ',' a.data _ hacom]
    rw [PyStr.split_block_append ',' (' ' :: b.data) _ (by
      intro hmem
      rcases List.mem_cons.mp hmem with h | h
      · exact absurd h (by decide)
      · exact hbcom h)]
    rw [PyStr.split_no_sep ',' (' ' :: c.data) (by
      intro hmem
      rcases List.mem_cons.mp hmem with h | h
      · exact absurd h (by decide)
      · exact hccom h)]
  rw [hcreate]
  unfold UpdateReadme.parse_problem_cell
  dsimp only
  rw [if_neg (by simp), hrem, hstrip]
  rw [if_neg (by
    cases hax : a.data with
    | nil => exact absurd hax ha0
    | cons ch t => simp [hax])]
  rw [hsplit]
  simp only [List.map_cons, List.map_nil, PyStr.strip_cons_space, hsa, hsb, hsc]
  simp only [List.filter_cons, hfa, hfb, hfc, if_true, List.filter_nil]
  rfl

theorem c10_cell_roundtrip_witness :
    UpdateReadme.parse_problem_cell
      (UpdateReadme.create_problem_cell ["1000", "1001", "2557", "2562"]) =
    ["1000", "1001", "2557"] :=
  c10_cell_roundtrip ["1000", "1001", "2557", "2562"] (by decide) (by decide)
